import Mathlib

/-!
Verification development for the room session relay server (`src/server.js`).

The server keeps a registry of rooms in process memory.  Each room has an
optional master connection id, a mapping of connection ids to user info,
per-connection sheet documents, NPC documents, and a bounded roll ledger.
All mutation happens synchronously in a single-threaded event dispatcher, so
the server is modelled as a pure step function from a state and an inbound
event to a new state and a list of outbound emissions.

Conventions of the shallow embedding:
* JavaScript objects used as string-keyed dictionaries (`room.users`,
  `room.sheets`, `room.npcs`) and the `rooms` Map are association lists that
  preserve insertion order; assignment updates an existing key in place and
  appends a fresh key at the end, exactly like JS insertion-order semantics
  for non-numeric string keys (socket ids and `npc_`-prefixed ids).
* Loosely typed field values are `JVal` (null, string, or number); the
  numeric domain is restricted to integers and NaN, which covers every value
  the summary fields can take in the claims under verification (the server
  itself never does arithmetic on them).
* `undefined`/absent fields are `Option.none`; an explicit `null` field is
  `some JVal.jnull`; the `a ?? b` operator falls through on both.
* The random NPC id suffix and the `Date.now()` timestamp are inputs of the
  corresponding events, since the server treats them as opaque data.
-/

/-- A JavaScript number as it occurs in sheet summary fields: NaN or an
integer. -/
inductive JNum where
  | nan : JNum
  | int : Int → JNum
deriving DecidableEq

/-- A loosely typed JavaScript value as stored in sheet document fields. -/
inductive JVal where
  | jnull : JVal
  | jstr : String → JVal
  | jnum : JNum → JVal
deriving DecidableEq

/-- JavaScript truthiness of a `JVal`: `null`, `""`, `0` and NaN are falsy. -/
def jsTruthy : JVal → Bool
  | .jnull => false
  | .jstr s => s ≠ ""
  | .jnum .nan => false
  | .jnum (.int n) => n ≠ 0

/-- Nullish normalisation: an absent field and an explicit `null` field both
act as "missing" for the `??` operator. -/
def jOpt : Option JVal → Option JVal
  | some .jnull => none
  | x => x

/-- The JavaScript `a ?? b` chain ending in `null`: take `a` unless it is
nullish, else `b` unless it is nullish, else `null`. -/
def coal2 (a b : Option JVal) : JVal :=
  match jOpt a with
  | some v => v
  | none =>
    match jOpt b with
    | some v => v
    | none => .jnull

/-- Characters stripped by `String.prototype.trim`. -/
def isWsChar (c : Char) : Bool := c.isWhitespace

/-- Trim whitespace from both ends of a character list (JS `trim`). -/
def trimChars (l : List Char) : List Char :=
  ((l.dropWhile isWsChar).reverse.dropWhile isWsChar).reverse

/-- Fold a digit list into a natural number. -/
def digitsToNat (l : List Char) : Nat :=
  l.foldl (fun a c => a * 10 + (c.toNat - 48)) 0

/-- JavaScript `Number(s)` for a string, restricted to the integer fragment:
whitespace-trimmed empty string is 0, an optional sign followed by digits is
that integer, anything else is NaN. -/
def strToNumber (s : String) : JNum :=
  match trimChars s.data with
  | [] => .int 0
  | '+' :: rest =>
    if rest ≠ [] ∧ rest.all Char.isDigit then .int (digitsToNat rest) else .nan
  | '-' :: rest =>
    if rest ≠ [] ∧ rest.all Char.isDigit then .int (-(digitsToNat rest : Int)) else .nan
  | t =>
    if t.all Char.isDigit then .int (digitsToNat t) else .nan

/-- JavaScript `Number(v)`: `Number(null) = 0`, numbers unchanged, strings
parsed. -/
def jsNumber : JVal → JNum
  | .jnull => .int 0
  | .jnum n => n
  | .jstr s => strToNumber s

/-- The `resources` sub-object of a sheet document (`resources.hp`,
`resources.pd`). -/
structure Resources where
  hp : Option JVal := none
  pd : Option JVal := none
deriving DecidableEq

/-- The `character` sub-object of a sheet document (`character.name`). -/
structure CharacterField where
  cname : Option JVal := none
deriving DecidableEq

/-- A sheet document, restricted to the fields the relay ever inspects; the
relay treats everything else as an opaque blob. -/
structure Sheet where
  hp_now : Option JVal := none
  pd_now : Option JVal := none
  sname : Option JVal := none
  resources : Option Resources := none
  character : Option CharacterField := none
deriving DecidableEq

/-- The summary projected from a sheet: `hp`/`pd` are `none` for JS `null`
and `some` for a JS number; `name` is a raw `JVal` (`jnull` for null). -/
structure Summary where
  hp : Option JNum
  pd : Option JNum
  name : JVal
deriving DecidableEq

/-- `extractSummaryFromSheet` from `src/server.js`:
`hp = sheet?.hp_now ?? sheet?.resources?.hp ?? null` (and `pd`, `name`
analogously), then `hp !== "" ? Number(hp) : null`, and `name || null`. -/
def extractSummaryFromSheet (sheet : Sheet) : Summary :=
  let hp := coal2 sheet.hp_now (sheet.resources.bind Resources.hp)
  let pd := coal2 sheet.pd_now (sheet.resources.bind Resources.pd)
  let name := coal2 sheet.sname (sheet.character.bind CharacterField.cname)
  { hp := if hp ≠ .jstr "" then some (jsNumber hp) else none
    pd := if pd ≠ .jstr "" then some (jsNumber pd) else none
    name := if jsTruthy name then name else .jnull }

/-- First non-nullish value of a list of optional fields, else `null`.  Used
by the specification-shaped restatement of summary extraction. -/
def firstPresent : List (Option JVal) → JVal
  | [] => .jnull
  | x :: rest =>
    match jOpt x with
    | some v => v
    | none => firstPresent rest

/-- Specification-shaped coercion of a numeric summary field: a raw empty
string means absent (`null`); any other raw value, including the `null` that
stands for a missing field, goes through `Number` (so a missing field comes
out as the number 0, not as `null`). -/
def numField (v : JVal) : Option JNum :=
  if v = .jstr "" then none else some (jsNumber v)

/-- Summary extraction written from the (amended) specification's words:
each field is the first present value of its fallback chain, numeric fields
are filtered for the empty string and coerced, the name is kept when truthy.
Used only to compare against `extractSummaryFromSheet`. -/
def extractSummarySpec (sheet : Sheet) : Summary :=
  { hp := numField (firstPresent [sheet.hp_now, sheet.resources.bind Resources.hp])
    pd := numField (firstPresent [sheet.pd_now, sheet.resources.bind Resources.pd])
    name :=
      let n := firstPresent [sheet.sname, sheet.character.bind CharacterField.cname]
      if jsTruthy n then n else .jnull }

/-- Characters admitted by `safeRoomId`'s character class `[a-zA-Z0-9_-]`. -/
def isAllowedChar (c : Char) : Bool :=
  (('a' ≤ c ∧ c ≤ 'z') ∨ ('A' ≤ c ∧ c ≤ 'Z') ∨ ('0' ≤ c ∧ c ≤ '9') ∨ c = '_' ∨ c = '-')

/-- `safeRoomId` on character lists: trim, take the first 32 characters,
strip everything outside `[a-zA-Z0-9_-]`. -/
def safeRoomIdChars (l : List Char) : List Char :=
  ((trimChars l).take 32).filter isAllowedChar

/-- `safeRoomId` from `src/server.js`:
`String(raw || "").trim().slice(0, 32).replace(/[^a-zA-Z0-9_-]/g, "")`. -/
def safeRoomId (raw : String) : String :=
  String.mk (safeRoomIdChars raw.data)

/-- `String(name || dflt).slice(0, 40)`: default on an empty (falsy) payload
name, then truncate to 40 characters. -/
def storedName (nm dflt : String) : String :=
  String.mk ((if nm = "" then dflt else nm).data.take 40)

/-- Association-list lookup (JS property read / `Map.get`). -/
def alookup {α : Type} : List (String × α) → String → Option α
  | [], _ => none
  | (k, v) :: t, k' => if k' = k then some v else alookup t k'

/-- Association-list assignment (JS property write / `Map.set`): update an
existing key in place, else append — insertion order is preserved. -/
def aset {α : Type} : List (String × α) → String → α → List (String × α)
  | [], k, v => [(k, v)]
  | (k', v') :: t, k, v =>
    if k' = k then (k, v) :: t else (k', v') :: aset t k v

/-- Association-list deletion (JS `delete` / `Map.delete`). -/
def aerase {α : Type} (l : List (String × α)) (k : String) : List (String × α) :=
  l.filter (fun p => p.1 ≠ k)

/-- A user entry: display name and role string (`"master"` or `"player"`). -/
structure UserInfo where
  name : String
  role : String
deriving DecidableEq

/-- The attribution snapshot stored in a roll entry. -/
structure RollFrom where
  socketId : String
  name : String
  role : String
deriving DecidableEq

/-- One entry of the roll ledger; `payload` is opaque, `at_` is the
server-assigned `Date.now()` timestamp. -/
structure RollEntry where
  roomId : String
  from_ : RollFrom
  payload : String
  at_ : Int
deriving DecidableEq

/-- One entry of the master's index (`buildIndex` output). -/
structure IndexEntry where
  id : String
  type : String
  name : JVal
  hp : Option JNum
  pd : Option JNum
deriving DecidableEq

/-- A room's state, mirroring the object built by `ensureRoom`. -/
structure Room where
  masterSocketId : Option String
  users : List (String × UserInfo)
  sheets : List (String × Sheet)
  npcs : List (String × Sheet)
  rolls : List RollEntry
deriving DecidableEq

/-- The fresh room created by `ensureRoom`. -/
def emptyRoom : Room :=
  { masterSocketId := none, users := [], sheets := [], npcs := [], rolls := [] }

/-- The whole server state: the `rooms` Map, in insertion order. -/
structure ServerState where
  rooms : List (String × Room)
deriving DecidableEq

/-- `ensureRoom`: return the room at the key, creating and storing an empty
room first when absent. -/
def ensureRoom (rooms : List (String × Room)) (roomId : String) :
    List (String × Room) × Room :=
  match alookup rooms roomId with
  | some r => (rooms, r)
  | none => (rooms ++ [(roomId, emptyRoom)], emptyRoom)

/-- `userName`: `room.users[sid]?.name || "Player"`. -/
def userName (room : Room) (sid : String) : String :=
  match alookup room.users sid with
  | some u => if u.name = "" then "Player" else u.name
  | none => "Player"

/-- JS truthiness of a nullable connection id (`null` and `""` are falsy). -/
def idTruthy : Option String → Bool
  | none => false
  | some s => s ≠ ""

/-- The guard of the create handler:
`room.masterSocketId && room.users[room.masterSocketId]`. -/
def hasLiveMaster (room : Room) : Bool :=
  match room.masterSocketId with
  | some m => (m ≠ "" : Bool) && (alookup room.users m).isSome
  | none => false

/-- `buildIndex` from `src/server.js`: one pass over `users` keeping only
players, then one pass over `npcs`, pushing entries onto a growing list. -/
def buildIndex (room : Room) : List IndexEntry :=
  let l1 := room.users.foldl
    (fun acc p =>
      if p.2.role ≠ "player" then acc
      else
        let s :=
          match alookup room.sheets p.1 with
          | some sh => extractSummaryFromSheet sh
          | none => { hp := none, pd := none, name := .jstr p.2.name }
        acc ++ [{ id := p.1, type := "player"
                  name := if jsTruthy s.name then s.name else .jstr p.2.name
                  hp := s.hp, pd := s.pd }])
    []
  room.npcs.foldl
    (fun acc p =>
      let s := extractSummaryFromSheet p.2
      acc ++ [{ id := p.1, type := "npc"
                name := if jsTruthy s.name then s.name else .jstr "NPC"
                hp := s.hp, pd := s.pd }])
    l1

/-- An outbound named event with its payload. -/
inductive OutEvent where
  | errorMsg : String → OutEvent
  | roomJoined : String → String → String → OutEvent
  | rollHistory : List RollEntry → OutEvent
  | sheetLoad : String → Sheet → String → OutEvent
  | sheetSummary : String → String → Summary → OutEvent
  | sheetPush : String → Sheet → OutEvent
  | sheetsIndex : List IndexEntry → OutEvent
  | npcCreated : String → Sheet → OutEvent
  | npcLoad : String → Sheet → OutEvent
  | rollBroadcast : RollEntry → OutEvent
deriving DecidableEq

/-- A delivery instruction: to one connection (`socket.emit` /
`io.to(socketId)`) or to the transport group of a room id (`io.to(roomId)`). -/
inductive Out where
  | toConn : String → OutEvent → Out
  | toRoom : String → OutEvent → Out
deriving DecidableEq

/-- An inbound event, tagged with the acting connection id.  `npcCreate`
carries the random id suffix and `rollSend` the `Date.now()` value as data. -/
inductive Event where
  | roomCreate : String → String → String → Event
  | roomJoin : String → String → String → Event
  | requestIndex : String → String → Event
  | sheetSave : String → String → Sheet → Event
  | masterRequestSheet : String → String → String → Event
  | masterUpdateSheet : String → String → String → Sheet → Event
  | npcCreate : String → String → Option Sheet → String → Event
  | npcRequest : String → String → String → Event
  | npcUpdate : String → String → String → Sheet → Event
  | npcDelete : String → String → String → Event
  | rollSend : String → String → String → Int → Event
  | disconnect : String → Event
deriving DecidableEq

/-- `emitIndex`: deliver the current index to the room's master connection. -/
def emitIndex (room : Room) : List Out :=
  match room.masterSocketId with
  | some m => [.toConn m (.sheetsIndex (buildIndex room))]
  | none => []

/-- The `room:create` handler. -/
def handleRoomCreate (st : ServerState) (sid roomId name : String) :
    ServerState × List Out :=
  let id := safeRoomId roomId
  if id = "" then (st, [.toConn sid (.errorMsg "Room ID inválido.")])
  else
    let p := ensureRoom st.rooms id
    if hasLiveMaster p.2 then
      (⟨p.1⟩, [.toConn sid (.errorMsg "Essa sala já tem mestre. Entre como Player.")])
    else
      let room' := { p.2 with
        masterSocketId := some sid
        users := aset p.2.users sid { name := storedName name "Mestre", role := "master" } }
      (⟨aset p.1 id room'⟩,
        [.toConn sid (.roomJoined id "master" sid),
         .toConn sid (.rollHistory room'.rolls)] ++ emitIndex room')

/-- The `room:join` handler. -/
def handleRoomJoin (st : ServerState) (sid roomId name : String) :
    ServerState × List Out :=
  let id := safeRoomId roomId
  if id = "" then (st, [.toConn sid (.errorMsg "Room ID inválido.")])
  else
    match alookup st.rooms id with
    | none => (st, [.toConn sid (.errorMsg "Sala não existe (ou está sem mestre).")])
    | some room =>
      if ¬ idTruthy room.masterSocketId then
        (st, [.toConn sid (.errorMsg "Sala não existe (ou está sem mestre).")])
      else
        let room' := { room with
          users := aset room.users sid { name := storedName name "Player", role := "player" } }
        (⟨aset st.rooms id room'⟩,
          [.toConn sid (.roomJoined id "player" sid),
           .toConn sid (.rollHistory room'.rolls)] ++
          (match alookup room'.sheets sid with
           | some sh => [.toConn sid (.sheetLoad sid sh sid)]
           | none => []) ++ emitIndex room')

/-- The `room:requestIndex` handler (silent on a missing room or a
non-master caller). -/
def handleRequestIndex (st : ServerState) (sid roomId : String) :
    ServerState × List Out :=
  match alookup st.rooms (safeRoomId roomId) with
  | none => (st, [])
  | some room =>
    if room.masterSocketId = some sid then (st, emitIndex room) else (st, [])

/-- The `sheet:save` handler. -/
def handleSheetSave (st : ServerState) (sid roomId : String) (sheet : Sheet) :
    ServerState × List Out :=
  let id := safeRoomId roomId
  match alookup st.rooms id with
  | none => (st, [])
  | some room =>
    if (alookup room.users sid).isSome then
      let room' := { room with sheets := aset room.sheets sid sheet }
      let sum := extractSummaryFromSheet sheet
      (⟨aset st.rooms id room'⟩,
        if idTruthy room'.masterSocketId then
          match room'.masterSocketId with
          | some m =>
            [.toConn m (.sheetSummary sid (userName room' sid) sum),
             .toConn m (.sheetPush sid sheet)] ++ emitIndex room'
          | none => []
        else [])
    else (st, [])

/-- The `master:requestSheet` handler. -/
def handleMasterRequestSheet (st : ServerState) (sid roomId ownerSocketId : String) :
    ServerState × List Out :=
  match alookup st.rooms (safeRoomId roomId) with
  | none => (st, [])
  | some room =>
    if room.masterSocketId = some sid then
      match alookup room.sheets ownerSocketId with
      | some sheet =>
        (st, [.toConn sid (.sheetLoad ownerSocketId sheet ownerSocketId)])
      | none => (st, [.toConn sid (.errorMsg "Esse player ainda não enviou a ficha.")])
    else (st, [.toConn sid (.errorMsg "Apenas o mestre pode ver fichas de outros.")])

/-- The `master:updateSheet` handler. -/
def handleMasterUpdateSheet (st : ServerState) (sid roomId ownerSocketId : String)
    (sheet : Sheet) : ServerState × List Out :=
  let id := safeRoomId roomId
  match alookup st.rooms id with
  | none => (st, [])
  | some room =>
    if room.masterSocketId = some sid then
      let room' := { room with sheets := aset room.sheets ownerSocketId sheet }
      (⟨aset st.rooms id room'⟩,
        [.toConn ownerSocketId (.sheetLoad ownerSocketId sheet ownerSocketId),
         .toConn sid (.sheetLoad ownerSocketId sheet ownerSocketId)] ++ emitIndex room')
    else (st, [.toConn sid (.errorMsg "Apenas o mestre pode editar fichas de outros.")])

/-- The `npc:create` handler; `rand` is the random id suffix drawn by the
server. -/
def handleNpcCreate (st : ServerState) (sid roomId : String) (sheet : Option Sheet)
    (rand : String) : ServerState × List Out :=
  let id := safeRoomId roomId
  match alookup st.rooms id with
  | none => (st, [])
  | some room =>
    if room.masterSocketId = some sid then
      let npcId := "npc_" ++ rand
      let stored := sheet.getD {}
      let room' := { room with npcs := aset room.npcs npcId stored }
      (⟨aset st.rooms id room'⟩,
        [.toConn sid (.npcCreated npcId stored)] ++ emitIndex room')
    else (st, [.toConn sid (.errorMsg "Só o mestre pode criar NPC.")])

/-- The `npc:request` handler (silent on a non-master caller). -/
def handleNpcRequest (st : ServerState) (sid roomId npcId : String) :
    ServerState × List Out :=
  match alookup st.rooms (safeRoomId roomId) with
  | none => (st, [])
  | some room =>
    if room.masterSocketId = some sid then
      match alookup room.npcs npcId with
      | some sheet => (st, [.toConn sid (.npcLoad npcId sheet)])
      | none => (st, [.toConn sid (.errorMsg "NPC não encontrado.")])
    else (st, [])

/-- The `npc:update` handler. -/
def handleNpcUpdate (st : ServerState) (sid roomId npcId : String) (sheet : Sheet) :
    ServerState × List Out :=
  let id := safeRoomId roomId
  match alookup st.rooms id with
  | none => (st, [])
  | some room =>
    if room.masterSocketId = some sid then
      if (alookup room.npcs npcId).isSome then
        let room' := { room with npcs := aset room.npcs npcId sheet }
        (⟨aset st.rooms id room'⟩,
          [.toConn sid (.npcLoad npcId sheet)] ++ emitIndex room')
      else (st, [.toConn sid (.errorMsg "NPC não encontrado.")])
    else (st, [.toConn sid (.errorMsg "Só o mestre pode editar NPC.")])

/-- The `npc:delete` handler (deletion is unconditional once authorized). -/
def handleNpcDelete (st : ServerState) (sid roomId npcId : String) :
    ServerState × List Out :=
  let id := safeRoomId roomId
  match alookup st.rooms id with
  | none => (st, [])
  | some room =>
    if room.masterSocketId = some sid then
      let room' := { room with npcs := aerase room.npcs npcId }
      (⟨aset st.rooms id room'⟩, emitIndex room')
    else (st, [.toConn sid (.errorMsg "Só o mestre pode excluir NPC.")])

/-- The roll ledger append: push, then shift once when over 50. -/
def rollAppend (rolls : List RollEntry) (e : RollEntry) : List RollEntry :=
  let l := rolls ++ [e]
  if 50 < l.length then l.tail else l

/-- The `roll:send` handler; `now` is the `Date.now()` timestamp. -/
def handleRollSend (st : ServerState) (sid roomId payload : String) (now : Int) :
    ServerState × List Out :=
  let id := safeRoomId roomId
  match alookup st.rooms id with
  | none => (st, [])
  | some room =>
    match alookup room.users sid with
    | none => (st, [])
    | some user =>
      let entry : RollEntry :=
        { roomId := id
          from_ := { socketId := sid, name := user.name, role := user.role }
          payload := payload, at_ := now }
      let room' := { room with rolls := rollAppend room.rolls entry }
      (⟨aset st.rooms id room'⟩, [.toRoom id (.rollBroadcast entry)])

/-- The body of the disconnect scan: walk the registry in insertion order,
process the first room containing the connection, and stop. -/
def handleDisconnectAux (sid : String) :
    List (String × Room) → List (String × Room) × List Out
  | [] => ([], [])
  | (rid, room) :: rest =>
    if (alookup room.users sid).isSome then
      let wasMaster := room.masterSocketId = some sid
      let room' : Room :=
        { room with
          users := aerase room.users sid
          masterSocketId := if wasMaster then none else room.masterSocketId }
      let outs :=
        (if wasMaster then
           [Out.toRoom rid (.errorMsg "O mestre desconectou. Sala ficou sem mestre.")]
         else []) ++
        (if idTruthy room'.masterSocketId then emitIndex room' else [])
      ((if room'.users = [] then rest else (rid, room') :: rest), outs)
    else
      let p := handleDisconnectAux sid rest
      ((rid, room) :: p.1, p.2)

/-- The `disconnect` handler. -/
def handleDisconnect (st : ServerState) (sid : String) : ServerState × List Out :=
  let p := handleDisconnectAux sid st.rooms
  (⟨p.1⟩, p.2)

/-- The single-threaded event dispatcher: one inbound event in, the new
state and the outbound deliveries out. -/
def handleEvent (st : ServerState) : Event → ServerState × List Out
  | .roomCreate sid roomId name => handleRoomCreate st sid roomId name
  | .roomJoin sid roomId name => handleRoomJoin st sid roomId name
  | .requestIndex sid roomId => handleRequestIndex st sid roomId
  | .sheetSave sid roomId sheet => handleSheetSave st sid roomId sheet
  | .masterRequestSheet sid roomId owner => handleMasterRequestSheet st sid roomId owner
  | .masterUpdateSheet sid roomId owner sheet =>
    handleMasterUpdateSheet st sid roomId owner sheet
  | .npcCreate sid roomId sheet rand => handleNpcCreate st sid roomId sheet rand
  | .npcRequest sid roomId npcId => handleNpcRequest st sid roomId npcId
  | .npcUpdate sid roomId npcId sheet => handleNpcUpdate st sid roomId npcId sheet
  | .npcDelete sid roomId npcId => handleNpcDelete st sid roomId npcId
  | .rollSend sid roomId payload now => handleRollSend st sid roomId payload now
  | .disconnect sid => handleDisconnect st sid

/-- Run a sequence of events from the empty registry, keeping the state. -/
def runEvents (evs : List Event) : ServerState :=
  evs.foldl (fun s e => (handleEvent s e).1) ⟨[]⟩

/-- Push an optional element at the end of a list (skip `none`).  Loop-body
shape used to reason about the two `buildIndex` passes. -/
def pushOpt {β : Type} (acc : List β) (x : Option β) : List β :=
  match x with
  | some b => acc ++ [b]
  | none => acc

/-- The room update performed by the disconnect handler on the room that
contains the leaving connection: the user entry is removed and, when the
leaver was the master, `masterSocketId` is cleared. -/
def roomAfterDisconnect (room : Room) (sid : String) : Room :=
  { room with
    users := aerase room.users sid
    masterSocketId :=
      if room.masterSocketId = some sid then none else room.masterSocketId }

/-! ### Association-list laws -/

theorem alookup_aset {α : Type} (l : List (String × α)) (k : String) (v : α)
    (k' : String) :
    alookup (aset l k v) k' = if k' = k then some v else alookup l k' := by
  induction l with
  | nil => simp [aset, alookup]
  | cons p t ih =>
    obtain ⟨a, b⟩ := p
    by_cases hak : a = k
    · subst hak
      by_cases hk : k' = a <;> simp [aset, alookup, hk]
    · by_cases hk : k' = a
      · subst hk
        simp [aset, alookup, hak]
      · simp [aset, alookup, hak, hk, ih]

theorem alookup_aerase {α : Type} (l : List (String × α)) (k k' : String) :
    alookup (aerase l k) k' = if k' = k then none else alookup l k' := by
  induction l with
  | nil => simp [aerase, alookup]
  | cons p t ih =>
    obtain ⟨a, b⟩ := p
    simp only [aerase, List.filter_cons] at ih ⊢
    simp only [ne_eq, decide_not] at ih ⊢
    by_cases hak : a = k
    · subst hak
      by_cases hk : k' = a
      · subst hk
        simp [alookup, ih]
      · simp [alookup, hk, ih]
    · by_cases hk : k' = a
      · subst hk
        simp [alookup, hak, ih]
      · simp [alookup, hak, hk, ih]

theorem alookup_mem {α : Type} {l : List (String × α)} {k : String} {v : α}
    (h : alookup l k = some v) : (k, v) ∈ l := by
  induction l with
  | nil => simp [alookup] at h
  | cons p t ih =>
    obtain ⟨a, b⟩ := p
    by_cases hk : k = a
    · subst hk
      have hbv : b = v := by simpa [alookup] using h
      subst hbv
      exact List.mem_cons_self _ _
    · simp only [alookup, if_neg hk] at h
      exact List.mem_cons_of_mem _ (ih h)

theorem mem_aset {α : Type} {l : List (String × α)} {k : String} {v : α}
    {p : String × α} (h : p ∈ aset l k v) : p = (k, v) ∨ p ∈ l := by
  induction l with
  | nil => simpa [aset] using h
  | cons q t ih =>
    obtain ⟨a, b⟩ := q
    by_cases hak : a = k
    · subst hak
      simp only [aset, if_pos rfl] at h
      rcases List.mem_cons.1 h with h1 | h1
      · exact Or.inl h1
      · exact Or.inr (List.mem_cons_of_mem _ h1)
    · simp only [aset, if_neg hak] at h
      rcases List.mem_cons.1 h with h1 | h1
      · exact Or.inr (by simp [h1])
      · rcases ih h1 with h2 | h2
        · exact Or.inl h2
        · exact Or.inr (List.mem_cons_of_mem _ h2)

theorem mem_trimChars {c : Char} {l : List Char} (h : c ∈ trimChars l) : c ∈ l := by
  have h1 := List.mem_reverse.1 h
  have h2 := (List.dropWhile_sublist (l := (l.dropWhile isWsChar).reverse)
    (p := isWsChar)).subset h1
  have h3 := List.mem_reverse.1 h2
  exact (List.dropWhile_sublist (l := l) (p := isWsChar)).subset h3

/-! ### Roll ledger -/

theorem rollAppend_length_le (rolls : List RollEntry) (e : RollEntry)
    (h : rolls.length ≤ 50) : (rollAppend rolls e).length ≤ 50 := by
  unfold rollAppend
  by_cases h50 : rolls.length = 50
  · simp [h50]
  · have : rolls.length + 1 ≤ 50 := by omega
    simp only [List.length_append, List.length_singleton]
    rw [if_neg (by omega)]
    simpa using this

theorem rollAppend_char (rolls : List RollEntry) (e : RollEntry)
    (h : rolls.length ≤ 50) :
    rollAppend rolls e =
      if rolls.length = 50 then rolls.tail ++ [e] else rolls ++ [e] := by
  unfold rollAppend
  by_cases h50 : rolls.length = 50
  · cases rolls with
    | nil => simp at h50
    | cons a t =>
      simp only [List.length_append, List.length_singleton, h50, if_pos rfl]
      rw [if_pos (by omega)]
      simp
  · simp only [List.length_append, List.length_singleton]
    rw [if_neg (by omega), if_neg h50]

theorem foldl_rollAppend (es : List RollEntry) :
    ∀ acc : List RollEntry, acc.length ≤ 50 →
      List.foldl rollAppend acc es = (acc ++ es).drop (acc.length + es.length - 50) := by
  induction es with
  | nil =>
    intro acc hacc
    simp only [List.foldl_nil, List.length_nil, List.append_nil]
    rw [(by omega : acc.length + 0 - 50 = 0)]
    simp
  | cons e es ih =>
    intro acc hacc
    simp only [List.foldl_cons]
    rw [ih (rollAppend acc e) (rollAppend_length_le acc e hacc)]
    rw [rollAppend_char acc e hacc]
    by_cases h50 : acc.length = 50
    · rw [if_pos h50]
      cases acc with
      | nil => simp at h50
      | cons a t =>
        simp only [List.tail_cons]
        simp only [List.length_cons] at h50
        have e1 : (t ++ [e]).length + es.length - 50 = es.length := by
          simp only [List.length_append, List.length_singleton]
          omega
        have e2 : (a :: t).length + (e :: es).length - 50 = es.length + 1 := by
          simp only [List.length_cons]
          omega
        rw [e1, e2, List.cons_append, List.drop_succ_cons, List.append_assoc,
          List.singleton_append]
    · rw [if_neg h50]
      have e3 : (acc ++ [e]).length + es.length - 50
          = acc.length + (e :: es).length - 50 := by
        simp only [List.length_append, List.length_singleton, List.length_cons,
          List.length_nil]
        omega
      rw [e3, List.append_assoc, List.singleton_append]

/-! ### Index construction -/

theorem foldl_pushOpt {α β : Type} (f : α → Option β) (l : List α) :
    ∀ init : List β,
      List.foldl (fun acc x => pushOpt acc (f x)) init l = init ++ l.filterMap f := by
  induction l with
  | nil => intro init; simp
  | cons x t ih =>
    intro init
    cases hfx : f x with
    | none =>
      simp only [List.foldl_cons, List.filterMap_cons, hfx]
      rw [ih]
      rfl
    | some b =>
      simp only [List.foldl_cons, List.filterMap_cons, hfx]
      rw [ih]
      simp [pushOpt, List.append_assoc]

/-! ### The master-registered invariant -/

/-- A room is well-formed when its master connection id, if set, is a key of
its `users` mapping. -/
def RoomOk (room : Room) : Prop :=
  ∀ m, room.masterSocketId = some m → (alookup room.users m).isSome = true

/-- Every room stored in a registry is well-formed. -/
def RegOk (l : List (String × Room)) : Prop :=
  ∀ p ∈ l, RoomOk p.2

theorem roomOk_empty : RoomOk emptyRoom := by
  intro m hm
  simp [emptyRoom] at hm

theorem roomOk_same {room' room : Room} (h : RoomOk room)
    (hu : room'.users = room.users) (hm : room'.masterSocketId = room.masterSocketId) :
    RoomOk room' := by
  intro m hmm
  rw [hu]
  exact h m (hm ▸ hmm)

theorem roomOk_setMaster (room : Room) (sid : String) (u : UserInfo) :
    RoomOk { room with masterSocketId := some sid, users := aset room.users sid u } := by
  intro m hm
  have hm' : some sid = some m := hm
  obtain rfl : sid = m := by injection hm'
  have : alookup (aset room.users sid u) sid = some u := by
    rw [alookup_aset]
    simp
  simp only [this]
  rfl

theorem roomOk_addUser {room : Room} (h : RoomOk room) (sid : String) (u : UserInfo) :
    RoomOk { room with users := aset room.users sid u } := by
  intro m hm
  have hm' : room.masterSocketId = some m := hm
  have hs := h m hm'
  show (alookup (aset room.users sid u) m).isSome = true
  rw [alookup_aset]
  by_cases hms : m = sid
  · simp [hms]
  · rw [if_neg hms]
    exact hs

theorem regOk_aset {l : List (String × Room)} {k : String} {r : Room}
    (h : RegOk l) (hr : RoomOk r) : RegOk (aset l k r) := by
  intro p hp
  rcases mem_aset hp with h1 | h1
  · rw [h1]
    exact hr
  · exact h p h1

theorem regOk_append_single {l : List (String × Room)} {k : String} {r : Room}
    (h : RegOk l) (hr : RoomOk r) : RegOk (l ++ [(k, r)]) := by
  intro p hp
  rcases List.mem_append.1 hp with h1 | h1
  · exact h p h1
  · rw [List.mem_singleton.1 h1]
    exact hr

theorem regOk_lookup {l : List (String × Room)} {k : String} {r : Room}
    (h : RegOk l) (hl : alookup l k = some r) : RoomOk r :=
  h _ (alookup_mem hl)

theorem regOk_roomCreate (st : ServerState) (sid roomId name : String)
    (h : RegOk st.rooms) : RegOk (handleRoomCreate st sid roomId name).1.rooms := by
  simp only [handleRoomCreate]
  by_cases hid : safeRoomId roomId = ""
  · rw [if_pos hid]
    exact h
  · rw [if_neg hid]
    cases hl : alookup st.rooms (safeRoomId roomId) with
    | some room =>
      have hens : ensureRoom st.rooms (safeRoomId roomId) = (st.rooms, room) := by
        simp [ensureRoom, hl]
      rw [hens]
      by_cases hm : hasLiveMaster room
      · rw [if_pos hm]
        exact h
      · rw [if_neg hm]
        exact regOk_aset h (roomOk_setMaster room sid _)
    | none =>
      have hens : ensureRoom st.rooms (safeRoomId roomId)
          = (st.rooms ++ [(safeRoomId roomId, emptyRoom)], emptyRoom) := by
        simp [ensureRoom, hl]
      rw [hens]
      have hlm : hasLiveMaster emptyRoom = false := rfl
      rw [if_neg (by simp [hlm])]
      exact regOk_aset (regOk_append_single h roomOk_empty) (roomOk_setMaster emptyRoom sid _)

theorem regOk_roomJoin (st : ServerState) (sid roomId name : String)
    (h : RegOk st.rooms) : RegOk (handleRoomJoin st sid roomId name).1.rooms := by
  simp only [handleRoomJoin]
  by_cases hid : safeRoomId roomId = ""
  · rw [if_pos hid]
    exact h
  · rw [if_neg hid]
    split
    · exact h
    · next room hl =>
      split
      · exact h
      · exact regOk_aset h (roomOk_addUser (regOk_lookup h hl) sid _)

theorem regOk_requestIndex (st : ServerState) (sid roomId : String)
    (h : RegOk st.rooms) : RegOk (handleRequestIndex st sid roomId).1.rooms := by
  simp only [handleRequestIndex]
  split
  · exact h
  · split <;> exact h

theorem regOk_sheetSave (st : ServerState) (sid roomId : String) (sheet : Sheet)
    (h : RegOk st.rooms) : RegOk (handleSheetSave st sid roomId sheet).1.rooms := by
  simp only [handleSheetSave]
  split
  · exact h
  · next room hl =>
    split
    · exact regOk_aset h (roomOk_same (regOk_lookup h hl) rfl rfl)
    · exact h

theorem regOk_masterRequestSheet (st : ServerState) (sid roomId owner : String)
    (h : RegOk st.rooms) : RegOk (handleMasterRequestSheet st sid roomId owner).1.rooms := by
  simp only [handleMasterRequestSheet]
  split
  · exact h
  · split
    · split <;> exact h
    · exact h

theorem regOk_masterUpdateSheet (st : ServerState) (sid roomId owner : String)
    (sheet : Sheet) (h : RegOk st.rooms) :
    RegOk (handleMasterUpdateSheet st sid roomId owner sheet).1.rooms := by
  simp only [handleMasterUpdateSheet]
  split
  · exact h
  · next room hl =>
    split
    · exact regOk_aset h (roomOk_same (regOk_lookup h hl) rfl rfl)
    · exact h

theorem regOk_npcCreate (st : ServerState) (sid roomId : String) (sheet : Option Sheet)
    (rand : String) (h : RegOk st.rooms) :
    RegOk (handleNpcCreate st sid roomId sheet rand).1.rooms := by
  simp only [handleNpcCreate]
  split
  · exact h
  · next room hl =>
    split
    · exact regOk_aset h (roomOk_same (regOk_lookup h hl) rfl rfl)
    · exact h

theorem regOk_npcRequest (st : ServerState) (sid roomId npcId : String)
    (h : RegOk st.rooms) : RegOk (handleNpcRequest st sid roomId npcId).1.rooms := by
  simp only [handleNpcRequest]
  split
  · exact h
  · split
    · split <;> exact h
    · exact h

theorem regOk_npcUpdate (st : ServerState) (sid roomId npcId : String) (sheet : Sheet)
    (h : RegOk st.rooms) : RegOk (handleNpcUpdate st sid roomId npcId sheet).1.rooms := by
  simp only [handleNpcUpdate]
  split
  · exact h
  · next room hl =>
    split
    · split
      · exact regOk_aset h (roomOk_same (regOk_lookup h hl) rfl rfl)
      · exact h
    · exact h

theorem regOk_npcDelete (st : ServerState) (sid roomId npcId : String)
    (h : RegOk st.rooms) : RegOk (handleNpcDelete st sid roomId npcId).1.rooms := by
  simp only [handleNpcDelete]
  split
  · exact h
  · next room hl =>
    split
    · exact regOk_aset h (roomOk_same (regOk_lookup h hl) rfl rfl)
    · exact h

theorem regOk_rollSend (st : ServerState) (sid roomId payload : String) (now : Int)
    (h : RegOk st.rooms) : RegOk (handleRollSend st sid roomId payload now).1.rooms := by
  simp only [handleRollSend]
  split
  · exact h
  · next room hl =>
    split
    · exact h
    · exact regOk_aset h (roomOk_same (regOk_lookup h hl) rfl rfl)

theorem regOk_disconnectAux (sid : String) :
    ∀ l : List (String × Room), RegOk l → RegOk (handleDisconnectAux sid l).1 := by
  intro l
  induction l with
  | nil =>
    intro h
    simpa [handleDisconnectAux] using h
  | cons p t ih =>
    obtain ⟨rid, room⟩ := p
    intro h
    have hroom : RoomOk room := h (rid, room) (List.mem_cons_self _ _)
    have ht : RegOk t := fun q hq => h q (List.mem_cons_of_mem _ hq)
    simp only [handleDisconnectAux]
    by_cases hu : (alookup room.users sid).isSome
    · rw [if_pos hu]
      split
    -- deleted-room branch: the remaining registry is the tail
      · exact ht
      · intro q hq
        rcases List.mem_cons.1 hq with h1 | h1
        · rw [h1]
          intro m hm
          by_cases hw : room.masterSocketId = some sid
          · simp only [if_pos hw] at hm
            exact absurd hm (by simp)
          · simp only [if_neg hw] at hm
            have hm' : room.masterSocketId = some m := hm
            have hms : m ≠ sid := by
              intro hcon
              exact hw (hcon ▸ hm')
            show (alookup (aerase room.users sid) m).isSome = true
            rw [alookup_aerase, if_neg hms]
            exact hroom m hm'
        · exact ht q h1
    · rw [if_neg hu]
      intro q hq
      rcases List.mem_cons.1 hq with h1 | h1
      · rw [h1]
        exact hroom
      · exact ih ht q h1

theorem regOk_handleEvent (st : ServerState) (e : Event) (h : RegOk st.rooms) :
    RegOk (handleEvent st e).1.rooms := by
  cases e with
  | roomCreate sid roomId name => exact regOk_roomCreate st sid roomId name h
  | roomJoin sid roomId name => exact regOk_roomJoin st sid roomId name h
  | requestIndex sid roomId => exact regOk_requestIndex st sid roomId h
  | sheetSave sid roomId sheet => exact regOk_sheetSave st sid roomId sheet h
  | masterRequestSheet sid roomId owner => exact regOk_masterRequestSheet st sid roomId owner h
  | masterUpdateSheet sid roomId owner sheet =>
    exact regOk_masterUpdateSheet st sid roomId owner sheet h
  | npcCreate sid roomId sheet rand => exact regOk_npcCreate st sid roomId sheet rand h
  | npcRequest sid roomId npcId => exact regOk_npcRequest st sid roomId npcId h
  | npcUpdate sid roomId npcId sheet => exact regOk_npcUpdate st sid roomId npcId sheet h
  | npcDelete sid roomId npcId => exact regOk_npcDelete st sid roomId npcId h
  | rollSend sid roomId payload now => exact regOk_rollSend st sid roomId payload now h
  | disconnect sid => exact regOk_disconnectAux sid st.rooms h

theorem regOk_runEvents (evs : List Event) : RegOk (runEvents evs).rooms := by
  suffices hgen : ∀ st : ServerState, RegOk st.rooms →
      RegOk (evs.foldl (fun s e => (handleEvent s e).1) st).rooms by
    exact hgen ⟨[]⟩ (by intro p hp; simp at hp)
  induction evs with
  | nil => intro st h; exact h
  | cons e t ih =>
    intro st h
    exact ih _ (regOk_handleEvent st e h)

/-! ### Small bridging lemmas -/

theorem numField_flip (v : JVal) :
    (if v ≠ .jstr "" then some (jsNumber v) else none) = numField v := by
  by_cases h : v = .jstr "" <;> simp [numField, h]

theorem aset_aset {α : Type} (l : List (String × α)) (k : String) (v w : α) :
    aset (aset l k v) k w = aset l k w := by
  induction l with
  | nil => simp [aset]
  | cons p t ih =>
    obtain ⟨a, b⟩ := p
    by_cases hak : a = k
    · subst hak
      simp [aset]
    · simp [aset, hak, ih]

theorem filterMap_someApp {α β : Type} (g : α → β) (l : List α) :
    l.filterMap (fun x => some (g x)) = l.map g := by
  induction l with
  | nil => simp
  | cons x t ih => simp [List.filterMap_cons, ih]

/-! ### Claims -/

/-- C3 counterexample: the claim says a document with neither `hp_now` nor
`resources.hp` yields `hp = null`, but `extractSummaryFromSheet` on the
empty document yields `hp = 0` (JavaScript `Number(null)` is `0`). -/
theorem s2p_C3_cex :
    (extractSummaryFromSheet {}).hp ≠ none ∧
    (extractSummaryFromSheet {}).hp = some (.int 0) := by
  exact ⟨by decide, by decide⟩

/-- C3 (amended): `extractSummaryFromSheet` reads hp from `hp_now`, else
`resources.hp`, else the value null, and pd / name analogously; an
empty-string value is treated as absent (null); every other raw value is
coerced with `Number`, under which the null standing for an absent field
becomes the number 0 (so a document with neither `hp_now` nor
`resources.hp` yields hp = 0, not null).  The worked examples:
`{hp_now: "12", pd_now: ""}` yields `{hp: 12, pd: null, name: null}` and
`{resources: {hp: 5, pd: 3}}` yields hp 5 and pd 3. -/
theorem s2p_C3_summary_extraction :
    (∀ sheet : Sheet, extractSummaryFromSheet sheet = extractSummarySpec sheet) ∧
    extractSummaryFromSheet { hp_now := some (.jstr "12"), pd_now := some (.jstr "") }
      = { hp := some (.int 12), pd := none, name := .jnull } ∧
    extractSummaryFromSheet
        { resources := some { hp := some (.jnum (.int 5)), pd := some (.jnum (.int 3)) } }
      = { hp := some (.int 5), pd := some (.int 3), name := .jnull } ∧
    extractSummaryFromSheet {} = { hp := some (.int 0), pd := some (.int 0), name := .jnull } := by
  refine ⟨fun sheet => ?_, by decide, by decide, by decide⟩
  simp only [extractSummaryFromSheet, extractSummarySpec, Summary.mk.injEq]
  exact ⟨numField_flip _, numField_flip _, rfl⟩

/-- C2: the roll ledger never exceeds 50 entries and is FIFO: an append onto
a list within the bound pushes at the end and, exactly when the list is at
capacity 50, additionally evicts the head (index 0, the oldest entry);
folding 55 appends over the empty ledger leaves precisely the last 50
entries in order. -/
theorem s2p_C2_roll_ledger (rolls : List RollEntry) (e : RollEntry)
    (es : List RollEntry) :
    (rolls.length ≤ 50 →
      (rollAppend rolls e).length ≤ 50 ∧
      rollAppend rolls e = if rolls.length = 50 then rolls.tail ++ [e] else rolls ++ [e]) ∧
    (es.length = 55 → List.foldl rollAppend [] es = es.drop 5) := by
  refine ⟨fun h => ⟨rollAppend_length_le _ _ h, rollAppend_char _ _ h⟩, fun h55 => ?_⟩
  have hf := foldl_rollAppend es [] (by simp)
  simp only [List.nil_append, List.length_nil, Nat.zero_add, h55] at hf
  exact hf

set_option maxRecDepth 8000

/-- Witness for C2 at a concrete entry and a concrete 55-entry sequence. -/
theorem s2p_C2_roll_ledger_witness :
    (rollAppend [] ⟨"r", ⟨"A", "N", "player"⟩, "d20", 0⟩).length ≤ 50 ∧
    List.foldl rollAppend [] (List.replicate 55 ⟨"r", ⟨"A", "N", "player"⟩, "d20", 0⟩)
      = (List.replicate 55 (⟨"r", ⟨"A", "N", "player"⟩, "d20", 0⟩ : RollEntry)).drop 5 := by
  have h := s2p_C2_roll_ledger [] ⟨"r", ⟨"A", "N", "player"⟩, "d20", 0⟩
    (List.replicate 55 ⟨"r", ⟨"A", "N", "player"⟩, "d20", 0⟩)
  exact ⟨(h.1 (by simp)).1, h.2 (by simp)⟩

/-- C10 counterexample: from the empty registry, the trace
`create(C, "r")` then `join(C, "r")` leaves room `"r"` with
`masterSocketId = C` while the user entry stored under `C` has role
`"player"`, so the master's UserInfo does not have role Master. -/
theorem s2p_C10_cex :
    (alookup (runEvents [.roomCreate "C" "r" "M", .roomJoin "C" "r" "P"]).rooms "r").map
        (fun room => (room.masterSocketId, (alookup room.users "C").map UserInfo.role))
      = some (some "C", some "player") := by
  decide

/-- C10 (amended): in every state reachable from the empty registry, every
registered room with a non-null `masterSocketId` has that id as a key of
its `users` mapping (the stored role, however, need not be Master — the
master joining its own room demotes its role while staying master). -/
theorem s2p_C10_master_key_registered (evs : List Event) (rid : String) (room : Room)
    (m : String) (hmem : (rid, room) ∈ (runEvents evs).rooms)
    (hm : room.masterSocketId = some m) :
    (alookup room.users m).isSome = true :=
  regOk_runEvents evs (rid, room) hmem m hm

/-- Witness for C10 at the one-event trace `create(A, "r")`. -/
theorem s2p_C10_master_key_registered_witness :
    (alookup (⟨some "A", [("A", ⟨"GM", "master"⟩)], [], [], []⟩ : Room).users "A").isSome
      = true :=
  s2p_C10_master_key_registered [.roomCreate "A" "r" "GM"] "r"
    ⟨some "A", [("A", ⟨"GM", "master"⟩)], [], [], []⟩ "A" (by decide) rfl

/-- C1: while a room's master connection is still registered in its `users`
mapping (the create guard `room.masterSocketId && room.users[masterId]`),
a second `room:create` on the same room id emits the already-has-master
error to the requesting connection only and leaves the whole server state
— hence the room's `masterSocketId`, `users`, `sheets`, `npcs` and `rolls`
— unchanged. -/
theorem s2p_C1_create_already_has_master (st : ServerState) (sid raw nm id : String)
    (room : Room) (hid : safeRoomId raw = id) (hne : id ≠ "")
    (hl : alookup st.rooms id = some room) (hm : hasLiveMaster room = true) :
    handleEvent st (.roomCreate sid raw nm)
      = (st, [.toConn sid (.errorMsg "Essa sala já tem mestre. Entre como Player.")]) := by
  show handleRoomCreate st sid raw nm = _
  simp only [handleRoomCreate, hid]
  rw [if_neg hne]
  have hens : ensureRoom st.rooms id = (st.rooms, room) := by
    simp [ensureRoom, hl]
  rw [hens]
  rw [if_pos hm]

/-- Witness for C1: a registry holding room `"r"` with live master `"M"`. -/
theorem s2p_C1_create_already_has_master_witness :
    handleEvent (⟨[("r", ⟨some "M", [("M", ⟨"Mestre", "master"⟩)], [], [], []⟩)]⟩ : ServerState)
        (.roomCreate "X" "r" "Bob")
      = (⟨[("r", ⟨some "M", [("M", ⟨"Mestre", "master"⟩)], [], [], []⟩)]⟩,
         [.toConn "X" (.errorMsg "Essa sala já tem mestre. Entre como Player.")]) :=
  s2p_C1_create_already_has_master
    ⟨[("r", ⟨some "M", [("M", ⟨"Mestre", "master"⟩)], [], [], []⟩)]⟩
    "X" "r" "Bob" "r" ⟨some "M", [("M", ⟨"Mestre", "master"⟩)], [], [], []⟩
    (by decide) (by decide) (by decide) (by decide)

/-- C6: a connection that is not the room's master invoking `npc:create`,
`npc:update`, `npc:delete` or `master:updateSheet` receives exactly one
error message, delivered to that connection only (no broadcast), and the
server state — hence the room's users, sheets, npcs, rolls and
masterSocketId — is entirely unchanged. -/
theorem s2p_C6_nonmaster_mutations_rejected (st : ServerState)
    (sid raw id npcId owner rand : String) (room : Room) (sh shn : Sheet)
    (osh : Option Sheet) (hid : safeRoomId raw = id)
    (hl : alookup st.rooms id = some room) (hm : room.masterSocketId ≠ some sid) :
    handleEvent st (.npcCreate sid raw osh rand)
      = (st, [.toConn sid (.errorMsg "Só o mestre pode criar NPC.")]) ∧
    handleEvent st (.npcUpdate sid raw npcId shn)
      = (st, [.toConn sid (.errorMsg "Só o mestre pode editar NPC.")]) ∧
    handleEvent st (.npcDelete sid raw npcId)
      = (st, [.toConn sid (.errorMsg "Só o mestre pode excluir NPC.")]) ∧
    handleEvent st (.masterUpdateSheet sid raw owner sh)
      = (st, [.toConn sid (.errorMsg "Apenas o mestre pode editar fichas de outros.")]) := by
  refine ⟨?_, ?_, ?_, ?_⟩
  · show handleNpcCreate st sid raw osh rand = _
    simp only [handleNpcCreate, hid, hl]
    rw [if_neg hm]
  · show handleNpcUpdate st sid raw npcId shn = _
    simp only [handleNpcUpdate, hid, hl]
    rw [if_neg hm]
  · show handleNpcDelete st sid raw npcId = _
    simp only [handleNpcDelete, hid, hl]
    rw [if_neg hm]
  · show handleMasterUpdateSheet st sid raw owner sh = _
    simp only [handleMasterUpdateSheet, hid, hl]
    rw [if_neg hm]

/-- Witness for C6: connection `"P"` is not the master of room `"r"`. -/
theorem s2p_C6_nonmaster_mutations_rejected_witness :
    handleEvent (⟨[("r", ⟨some "M", [("M", ⟨"Mestre", "master"⟩)], [], [], []⟩)]⟩ : ServerState)
        (.npcDelete "P" "r" "npc_1")
      = (⟨[("r", ⟨some "M", [("M", ⟨"Mestre", "master"⟩)], [], [], []⟩)]⟩,
         [.toConn "P" (.errorMsg "Só o mestre pode excluir NPC.")]) :=
  (s2p_C6_nonmaster_mutations_rejected
    ⟨[("r", ⟨some "M", [("M", ⟨"Mestre", "master"⟩)], [], [], []⟩)]⟩
    "P" "r" "r" "npc_1" "O" "x" ⟨some "M", [("M", ⟨"Mestre", "master"⟩)], [], [], []⟩
    {} {} none (by decide) (by decide) (by decide)).2.2.1

/-- C7: a connection that is not the room's master invoking the read-only
`room:requestIndex` or `npc:request` is silently ignored: no outbound event
at all is emitted (in particular no error), and the state is unchanged. -/
theorem s2p_C7_nonmaster_reads_silent (st : ServerState) (sid raw id npcId : String)
    (room : Room) (hid : safeRoomId raw = id)
    (hl : alookup st.rooms id = some room) (hm : room.masterSocketId ≠ some sid) :
    handleEvent st (.requestIndex sid raw) = (st, []) ∧
    handleEvent st (.npcRequest sid raw npcId) = (st, []) := by
  constructor
  · show handleRequestIndex st sid raw = _
    simp only [handleRequestIndex, hid, hl]
    rw [if_neg hm]
  · show handleNpcRequest st sid raw npcId = _
    simp only [handleNpcRequest, hid, hl]
    rw [if_neg hm]

/-- Witness for C7: connection `"P"` is not the master of room `"r"`. -/
theorem s2p_C7_nonmaster_reads_silent_witness :
    handleEvent (⟨[("r", ⟨some "M", [("M", ⟨"Mestre", "master"⟩)], [], [], []⟩)]⟩ : ServerState)
        (.requestIndex "P" "r")
      = (⟨[("r", ⟨some "M", [("M", ⟨"Mestre", "master"⟩)], [], [], []⟩)]⟩, []) :=
  (s2p_C7_nonmaster_reads_silent
    ⟨[("r", ⟨some "M", [("M", ⟨"Mestre", "master"⟩)], [], [], []⟩)]⟩
    "P" "r" "r" "npc_1" ⟨some "M", [("M", ⟨"Mestre", "master"⟩)], [], [], []⟩
    (by decide) (by decide) (by decide)).1

/-- C4: `safeRoomId` always yields at most 32 characters, all inside
`[A-Za-z0-9_-]` (whitespace having been trimmed before truncation); an
input with no allowed character sanitizes to the empty string; and both
`room:create` and `room:join` reject an empty sanitized id with the
invalid-id error, leaving the registry untouched. -/
theorem s2p_C4_sanitize (raw : String) (st : ServerState) (sid nm : String) :
    (safeRoomId raw).data.length ≤ 32 ∧
    (∀ c ∈ (safeRoomId raw).data, isAllowedChar c = true) ∧
    ((∀ c ∈ raw.data, isAllowedChar c = false) → safeRoomId raw = "") ∧
    (safeRoomId raw = "" →
      handleEvent st (.roomCreate sid raw nm)
        = (st, [.toConn sid (.errorMsg "Room ID inválido.")]) ∧
      handleEvent st (.roomJoin sid raw nm)
        = (st, [.toConn sid (.errorMsg "Room ID inválido.")])) := by
  refine ⟨?_, ?_, ?_, ?_⟩
  · show (safeRoomIdChars raw.data).length ≤ 32
    calc (safeRoomIdChars raw.data).length
        ≤ ((trimChars raw.data).take 32).length := List.length_filter_le _ _
      _ ≤ 32 := List.length_take_le _ _
  · intro c hc
    have := List.mem_filter.1 hc
    exact this.2
  · intro hnone
    show String.mk (safeRoomIdChars raw.data) = ""
    have hfil : safeRoomIdChars raw.data = [] := by
      show ((trimChars raw.data).take 32).filter isAllowedChar = []
      rw [List.filter_eq_nil_iff]
      intro a ha
      have h1 : a ∈ trimChars raw.data := List.take_subset _ _ ha
      have h2 : a ∈ raw.data := mem_trimChars h1
      simp [hnone a h2]
    rw [hfil]
  · intro he
    constructor
    · show handleRoomCreate st sid raw nm = _
      simp only [handleRoomCreate, he]
      simp
    · show handleRoomJoin st sid raw nm = _
      simp only [handleRoomJoin, he]
      simp

/-- Witness for C4 at the concrete raw id `" a/b!c "` (sanitizes to `"abc"`)
and `"!!!"` (no allowed character, rejected by create and join). -/
theorem s2p_C4_sanitize_witness :
    (safeRoomId " a/b!c ").data.length ≤ 32 ∧
    safeRoomId "!!!" = "" ∧
    handleEvent (⟨[]⟩ : ServerState) (.roomCreate "A" "!!!" "n")
      = (⟨[]⟩, [.toConn "A" (.errorMsg "Room ID inválido.")]) ∧
    handleEvent (⟨[]⟩ : ServerState) (.roomJoin "A" "!!!" "n")
      = (⟨[]⟩, [.toConn "A" (.errorMsg "Room ID inválido.")]) := by
  have h := s2p_C4_sanitize "!!!" ⟨[]⟩ "A" "n"
  have he : safeRoomId "!!!" = "" := h.2.2.1 (by decide)
  exact ⟨(s2p_C4_sanitize " a/b!c " ⟨[]⟩ "A" "n").1, he, (h.2.2.2 he).1, (h.2.2.2 he).2⟩

/-- C5: a `room:join` on a sanitized id with no room in the registry, or a
room whose master id is nullish, emits only the room-not-found /
no-master error to the joiner and leaves the state untouched; after a
successful `room:create` on a fresh id, a join by a second connection
succeeds: it adds a Player UserInfo for the joiner and the joiner receives
`roll:history` carrying the room's roll list, which is empty for a fresh
room. -/
theorem s2p_C5_join_ordering (st : ServerState) (sid raw nm id : String)
    (hid : safeRoomId raw = id) (hne : id ≠ "") :
    (alookup st.rooms id = none →
      handleEvent st (.roomJoin sid raw nm)
        = (st, [.toConn sid (.errorMsg "Sala não existe (ou está sem mestre).")])) ∧
    (∀ room : Room, alookup st.rooms id = some room →
      idTruthy room.masterSocketId = false →
      handleEvent st (.roomJoin sid raw nm)
        = (st, [.toConn sid (.errorMsg "Sala não existe (ou está sem mestre).")])) ∧
    (∀ sid2 nm2 : String, alookup st.rooms id = none → sid ≠ "" → sid2 ≠ sid →
      handleEvent (handleEvent st (.roomCreate sid raw nm)).1 (.roomJoin sid2 raw nm2)
        = (⟨aset (st.rooms ++ [(id, emptyRoom)]) id
              ⟨some sid,
               [(sid, ⟨storedName nm "Mestre", "master"⟩),
                (sid2, ⟨storedName nm2 "Player", "player"⟩)], [], [], []⟩⟩,
           [.toConn sid2 (.roomJoined id "player" sid2),
            .toConn sid2 (.rollHistory []),
            .toConn sid (.sheetsIndex (buildIndex
              ⟨some sid,
               [(sid, ⟨storedName nm "Mestre", "master"⟩),
                (sid2, ⟨storedName nm2 "Player", "player"⟩)], [], [], []⟩))])) := by
  refine ⟨?_, ?_, ?_⟩
  · intro hnone
    show handleRoomJoin st sid raw nm = _
    simp only [handleRoomJoin, hid, hnone]
    rw [if_neg hne]
  · intro room hl hfalse
    show handleRoomJoin st sid raw nm = _
    simp only [handleRoomJoin, hid, hl]
    rw [if_neg hne]
    rw [if_pos (by simp [hfalse])]
  · intro sid2 nm2 hnone hsid hsid2
    have hcreate : (handleEvent st (.roomCreate sid raw nm)).1
        = ⟨aset (st.rooms ++ [(id, emptyRoom)]) id
            ⟨some sid, [(sid, ⟨storedName nm "Mestre", "master"⟩)], [], [], []⟩⟩ := by
      show (handleRoomCreate st sid raw nm).1 = _
      simp only [handleRoomCreate, hid]
      rw [if_neg hne]
      have hens : ensureRoom st.rooms id = (st.rooms ++ [(id, emptyRoom)], emptyRoom) := by
        simp [ensureRoom, hnone]
      rw [hens]
      rw [if_neg (by simp [hasLiveMaster, emptyRoom])]
      rfl
    rw [hcreate]
    show handleRoomJoin _ sid2 raw nm2 = _
    have hlook : alookup
        (aset (st.rooms ++ [(id, emptyRoom)]) id
          (⟨some sid, [(sid, ⟨storedName nm "Mestre", "master"⟩)], [], [], []⟩ : Room)) id
        = some ⟨some sid, [(sid, ⟨storedName nm "Mestre", "master"⟩)], [], [], []⟩ := by
      rw [alookup_aset]
      simp
    simp only [handleRoomJoin, hid, hlook]
    rw [if_neg hne]
    rw [if_neg (by simp [idTruthy, hsid])]
    have husers : aset [(sid, (⟨storedName nm "Mestre", "master"⟩ : UserInfo))] sid2
        ⟨storedName nm2 "Player", "player"⟩
        = [(sid, ⟨storedName nm "Mestre", "master"⟩),
           (sid2, ⟨storedName nm2 "Player", "player"⟩)] := by
      simp only [aset]
      rw [if_neg (fun h => hsid2 h.symm)]
    simp only [husers, aset_aset, emitIndex]
    simp [alookup]

/-- Witness for C5: create by `"A"` on fresh room `"room1"`, join by `"B"`. -/
theorem s2p_C5_join_ordering_witness :
    handleEvent (⟨[]⟩ : ServerState) (.roomJoin "A" "room1" "GM")
      = (⟨[]⟩, [.toConn "A" (.errorMsg "Sala não existe (ou está sem mestre).")]) ∧
    handleEvent (handleEvent (⟨[]⟩ : ServerState) (.roomCreate "A" "room1" "GM")).1
        (.roomJoin "B" "room1" "Ana")
      = (⟨aset ([] ++ [("room1", emptyRoom)]) "room1"
            ⟨some "A",
             [("A", ⟨storedName "GM" "Mestre", "master"⟩),
              ("B", ⟨storedName "Ana" "Player", "player"⟩)], [], [], []⟩⟩,
         [.toConn "B" (.roomJoined "room1" "player" "B"),
          .toConn "B" (.rollHistory []),
          .toConn "A" (.sheetsIndex (buildIndex
            ⟨some "A",
             [("A", ⟨storedName "GM" "Mestre", "master"⟩),
              ("B", ⟨storedName "Ana" "Player", "player"⟩)], [], [], []⟩))]) := by
  have h := s2p_C5_join_ordering ⟨[]⟩ "A" "room1" "GM" "room1" rfl (by decide)
  exact ⟨h.1 rfl, h.2.2 "B" "Ana" rfl (by decide) (by decide)⟩

theorem disconnectAux_found (sid rid : String) (room : Room) (post : List (String × Room))
    (hu : (alookup room.users sid).isSome = true) :
    handleDisconnectAux sid ((rid, room) :: post)
      = ((if (roomAfterDisconnect room sid).users = [] then post
          else (rid, roomAfterDisconnect room sid) :: post),
         (if room.masterSocketId = some sid then
            [Out.toRoom rid (.errorMsg "O mestre desconectou. Sala ficou sem mestre.")]
          else []) ++
         (if idTruthy (roomAfterDisconnect room sid).masterSocketId then
            emitIndex (roomAfterDisconnect room sid)
          else [])) := by
  simp only [handleDisconnectAux, roomAfterDisconnect]
  rw [if_pos hu]

theorem disconnectAux_scan (sid : String) (mid : List (String × Room)) :
    ∀ pre : List (String × Room), (∀ p ∈ pre, alookup p.2.users sid = none) →
      handleDisconnectAux sid (pre ++ mid)
        = (pre ++ (handleDisconnectAux sid mid).1, (handleDisconnectAux sid mid).2) := by
  intro pre
  induction pre with
  | nil => intro _; simp
  | cons q t ih =>
    intro hpre
    obtain ⟨qid, qroom⟩ := q
    have h0 : alookup qroom.users sid = none := hpre (qid, qroom) (List.mem_cons_self _ _)
    simp only [List.cons_append, handleDisconnectAux]
    rw [if_neg (by simp [h0])]
    simp only [List.append_eq]
    rw [ih (fun p hp => hpre p (List.mem_cons_of_mem _ hp))]


/-- C8: on disconnect of a connection `sid` belonging to a room (and to no
earlier room in registry iteration order), exactly that room is updated and
the scan stops: `sid` is removed from `users`; when `sid` was the master,
`masterSocketId` is cleared and the no-master notice is broadcast to the
room group, while a non-master disconnect broadcasts nothing; when a master
remains (its id still truthy), a fresh index is delivered to it; the room
is deleted from the registry exactly when its `users` mapping became empty;
rooms before and after the matched one, and the room's `sheets`, are
untouched (`roomAfterDisconnect` keeps `sheets` verbatim). -/
theorem s2p_C8_disconnect_cleanup (pre post : List (String × Room)) (rid sid : String)
    (room : Room) (hpre : ∀ p ∈ pre, alookup p.2.users sid = none)
    (hu : (alookup room.users sid).isSome = true) :
    handleEvent ⟨pre ++ (rid, room) :: post⟩ (.disconnect sid)
      = (⟨pre ++ (if (roomAfterDisconnect room sid).users = [] then post
            else (rid, roomAfterDisconnect room sid) :: post)⟩,
         (if room.masterSocketId = some sid then
            [Out.toRoom rid (.errorMsg "O mestre desconectou. Sala ficou sem mestre.")]
          else []) ++
         (if idTruthy (roomAfterDisconnect room sid).masterSocketId then
            emitIndex (roomAfterDisconnect room sid)
          else [])) := by
  show handleDisconnect _ _ = _
  simp only [handleDisconnect]
  rw [disconnectAux_scan sid ((rid, room) :: post) pre hpre]
  rw [disconnectAux_found sid rid room post hu]

/-- Witness for C8: master `"M"` with two players disconnects; the room
survives with the two players, the master id is cleared, and only the
no-master notice is emitted. -/
theorem s2p_C8_disconnect_cleanup_witness :
    handleEvent (⟨[("r", ⟨some "M",
        [("M", ⟨"GM", "master"⟩), ("P1", ⟨"Ana", "player"⟩), ("P2", ⟨"Bia", "player"⟩)],
        [], [], []⟩)]⟩ : ServerState) (.disconnect "M")
      = (⟨[("r", ⟨none, [("P1", ⟨"Ana", "player"⟩), ("P2", ⟨"Bia", "player"⟩)],
          [], [], []⟩)]⟩,
         [.toRoom "r" (.errorMsg "O mestre desconectou. Sala ficou sem mestre.")]) :=
  (s2p_C8_disconnect_cleanup [] [] "r" "M"
    ⟨some "M",
      [("M", ⟨"GM", "master"⟩), ("P1", ⟨"Ana", "player"⟩), ("P2", ⟨"Bia", "player"⟩)],
      [], [], []⟩
    (by simp) (by decide)).trans (by decide)

/-- C9 counterexample: the claim says a player entry takes its name from
the sheet summary whenever a sheet exists, but for a player `"P"` whose
sheet has no name field the summary name is null while `buildIndex` emits
the stored user name `"Alice"` (the code computes `s.name || u.name`).
Also visible: the entry's pd is 0, the summary of a sheet without pd. -/
theorem s2p_C9_cex :
    buildIndex ⟨some "M", [("P", ⟨"Alice", "player"⟩)], [("P", { hp_now := some (.jnum (.int 7)) })], [], []⟩
      = [⟨"P", "player", .jstr "Alice", some (.int 7), some (.int 0)⟩] ∧
    (extractSummaryFromSheet { hp_now := some (.jnum (.int 7)) }).name = .jnull := by
  exact ⟨by decide, by decide⟩

/-- C9 (amended): `buildIndex` returns exactly one entry per user with role
player, in `users` iteration order, followed by one entry per NPC in `npcs`
iteration order; a player entry takes hp/pd from the sheet summary when a
sheet exists (else null hp/pd) and its name from the sheet summary when
that name is truthy, else falling back to the user's stored name; an NPC
name falls back to `"NPC"` when the document's summary name is not truthy;
users with role master produce no entry. -/
theorem s2p_C9_build_index (room : Room) :
    buildIndex room =
      room.users.filterMap (fun p =>
        if p.2.role = "player" then
          some (match alookup room.sheets p.1 with
            | some sh =>
              { id := p.1, type := "player"
                name := if jsTruthy (extractSummaryFromSheet sh).name
                  then (extractSummaryFromSheet sh).name else .jstr p.2.name
                hp := (extractSummaryFromSheet sh).hp
                pd := (extractSummaryFromSheet sh).pd }
            | none =>
              { id := p.1, type := "player", name := .jstr p.2.name
                hp := none, pd := none })
        else none)
      ++ room.npcs.map (fun p =>
          { id := p.1, type := "npc"
            name := if jsTruthy (extractSummaryFromSheet p.2).name
              then (extractSummaryFromSheet p.2).name else .jstr "NPC"
            hp := (extractSummaryFromSheet p.2).hp
            pd := (extractSummaryFromSheet p.2).pd }) := by
  simp only [buildIndex]
  have hb : (fun (acc : List IndexEntry) (p : String × UserInfo) =>
      if p.2.role ≠ "player" then acc
      else
        let s :=
          match alookup room.sheets p.1 with
          | some sh => extractSummaryFromSheet sh
          | none => { hp := none, pd := none, name := .jstr p.2.name }
        acc ++ [{ id := p.1, type := "player"
                  name := if jsTruthy s.name then s.name else .jstr p.2.name
                  hp := s.hp, pd := s.pd }])
      = (fun (acc : List IndexEntry) (p : String × UserInfo) =>
          pushOpt acc
            (if p.2.role = "player" then
              some (match alookup room.sheets p.1 with
                | some sh =>
                  ({ id := p.1, type := "player"
                     name := if jsTruthy (extractSummaryFromSheet sh).name
                       then (extractSummaryFromSheet sh).name else .jstr p.2.name
                     hp := (extractSummaryFromSheet sh).hp
                     pd := (extractSummaryFromSheet sh).pd } : IndexEntry)
                | none =>
                  { id := p.1, type := "player", name := .jstr p.2.name
                    hp := none, pd := none })
            else none)) := by
    funext acc p
    by_cases hr : p.2.role = "player"
    · simp only [hr, ne_eq, not_true_eq_false, if_false, if_pos rfl]
      cases hsh : alookup room.sheets p.1 with
      | some sh => simp [hsh, pushOpt]
      | none => simp [hsh, pushOpt]
    · simp [hr, pushOpt]
  rw [hb, foldl_pushOpt]
  have hb2 : (fun (acc : List IndexEntry) (p : String × Sheet) =>
      let s := extractSummaryFromSheet p.2
      acc ++ [{ id := p.1, type := "npc"
                name := if jsTruthy s.name then s.name else .jstr "NPC"
                hp := s.hp, pd := s.pd }])
      = (fun (acc : List IndexEntry) (p : String × Sheet) =>
          pushOpt acc
            (some ({ id := p.1, type := "npc"
                     name := if jsTruthy (extractSummaryFromSheet p.2).name
                       then (extractSummaryFromSheet p.2).name else .jstr "NPC"
                     hp := (extractSummaryFromSheet p.2).hp
                     pd := (extractSummaryFromSheet p.2).pd } : IndexEntry))) := rfl
  rw [hb2, foldl_pushOpt, filterMap_someApp]
  simp
